import Mathlib

/-!
Shallow embedding of the query-iteration core of the Flecs-Rust ECS
(`flecs_ecs/src/core/utility/traits/iter.rs`, trait `IterAPI`).

The engine-side iteration cursor is modelled as the list of matches the
cursor would yield: `iter_next` succeeding corresponds to the list being
nonempty, and each `MatchItem` is the cursor state after one advance
(table handle, entity count, entity-id array, per-row component data).
Each consumption pattern of the trait is translated into a pure function
over that list which additionally returns the trace of engine-visible
events it performs (table locks/unlocks, callback invocations with the
row index used for tuple extraction, explicit cursor finalization), so
that lock pairing, invocation counts and finalization behaviour are
directly observable.
-/

namespace FlecsIter

/-- Entity identifiers, as yielded in the iterator's entity array. -/
abbrev Entity := Nat

/-- Cursor state after one successful advance of `iter_next`: the table
handle (`iter.table`), the match entity count (`iter.count`), the entity
id array (`iter.entities`) and the per-row component tuple data that
`T::create_ptrs` / `get_tuple(i)` expose (abstracted to one value per
row). -/
structure MatchItem where
  table : Nat
  count : Nat
  entities : List Entity
  rows : List Nat
deriving Repr, DecidableEq

/-- Engine-visible events performed by a consumption pattern:
`ecs_table_lock`, `ecs_table_unlock`, a callback invocation at row index
`i` (the index handed to `get_tuple`), and `ecs_iter_fini`. -/
inductive Event where
  | lock (table : Nat)
  | unlock (table : Nat)
  | invoke (i : Nat)
  | fini
deriving Repr, DecidableEq

/-- The invoke events of a trace. -/
def invokes (tr : List Event) : List Event :=
  tr.filter fun e => match e with | .invoke _ => true | _ => false

/-- Number of callback invocations in a trace. -/
def invokeCount (tr : List Event) : Nat := (invokes tr).length

/-- Number of `ecs_table_lock` calls in a trace. -/
def lockCount (tr : List Event) : Nat :=
  (tr.filter fun e => match e with | .lock _ => true | _ => false).length

/-- Number of `ecs_table_unlock` calls in a trace. -/
def unlockCount (tr : List Event) : Nat :=
  (tr.filter fun e => match e with | .unlock _ => true | _ => false).length

/-- Trace of one consumed match: lock the match's table, run the inner
entity loop, unlock the table. -/
def segment (t : Nat) (inner : List Event) : List Event :=
  Event.lock t :: inner ++ [Event.unlock t]

/-- Predicate: a trace consists of invoke events only. -/
def invokesOnly (tr : List Event) : Bool :=
  tr.all fun e => match e with | .invoke _ => true | _ => false

/-! ## The `each` family (`each`, `each_entity`, `each_iter`)

`each` runs the inner loop for `i in 0..iter.count`; `each_entity` and
`each_iter` first replace a zero `iter.count` by `1`. -/

/-- Effective inner-loop bound of `each_entity` / `each_iter` /
`find_iter`: `if iter.count == 0 { 1 } else { iter.count }`. -/
def effCount (c : Nat) : Nat := if c = 0 then 1 else c

/-- Embedding of `IterAPI::each`: while `iter_next`, lock the table,
invoke the callback on `get_tuple(i)` for `i in 0..iter.count`, unlock. -/
def each_run : List MatchItem → List Event
  | [] => []
  | m :: rest =>
    (Event.lock m.table ::
      (List.range m.count).map Event.invoke ++ [Event.unlock m.table])
      ++ each_run rest

/-- Embedding of `IterAPI::each_entity`: as `each`, but the inner loop
bound is `1` when `iter.count == 0`, and the callback also receives
`EntityView::new_from(world, *iter.entities.add(i))`. -/
def each_entity_run : List MatchItem → List Event
  | [] => []
  | m :: rest =>
    (Event.lock m.table ::
      (List.range (effCount m.count)).map Event.invoke ++ [Event.unlock m.table])
      ++ each_entity_run rest

/-- Embedding of `IterAPI::each_iter`: as `each_entity` (same
zero-count special case), the callback receiving the iter context and
the row index. -/
def each_iter_run : List MatchItem → List Event
  | [] => []
  | m :: rest =>
    (Event.lock m.table ::
      (List.range (effCount m.count)).map Event.invoke ++ [Event.unlock m.table])
      ++ each_iter_run rest

/-! ## The `find` family (`find`, `find_entity`, `find_iter`)

The inner entity loop breaks at the first row whose predicate returns
true and records that row's entity; the outer `while iter_next` loop
continues over the remaining matches, so a later satisfying match
overwrites the recorded entity. -/

/-- Inner entity loop of `find`: starting at row `i` with `k` rows left,
invoke the predicate on `get_tuple(i)`; on true, record
`entities.add(i)` and break. Returns the recorded entity and the invoke
trace. -/
def findRow (p : Nat → Bool) (rows : List Nat) (ents : List Entity) :
    Nat → Nat → Option Entity × List Event
  | _, 0 => (none, [])
  | i, k + 1 =>
    if p (rows.getD i 0) then
      (some (ents.getD i 0), [Event.invoke i])
    else
      let r := findRow p rows ents (i + 1) k
      (r.1, Event.invoke i :: r.2)

/-- Outer loop of `IterAPI::find`, carrying the `entity` accumulator
that a later match's inner-loop hit overwrites. -/
def find_go (p : Nat → Bool) (acc : Option Entity) :
    List MatchItem → Option Entity × List Event
  | [] => (acc, [])
  | m :: rest =>
    let inner := findRow p m.rows m.entities 0 m.count
    let acc2 := match inner.1 with | some e => some e | none => acc
    let r := find_go p acc2 rest
    (r.1, (Event.lock m.table :: inner.2 ++ [Event.unlock m.table]) ++ r.2)

/-- Embedding of `IterAPI::find`: result entity and event trace. -/
def find_run (p : Nat → Bool) (ms : List MatchItem) : Option Entity × List Event :=
  find_go p none ms

/-- Inner entity loop of `find_entity`: the entity is built before the
callback and the predicate receives it along with the tuple. -/
def findEntityRow (p : Entity → Nat → Bool) (rows : List Nat) (ents : List Entity) :
    Nat → Nat → Option Entity × List Event
  | _, 0 => (none, [])
  | i, k + 1 =>
    if p (ents.getD i 0) (rows.getD i 0) then
      (some (ents.getD i 0), [Event.invoke i])
    else
      let r := findEntityRow p rows ents (i + 1) k
      (r.1, Event.invoke i :: r.2)

/-- Outer loop of `IterAPI::find_entity`. -/
def find_entity_go (p : Entity → Nat → Bool) (acc : Option Entity) :
    List MatchItem → Option Entity × List Event
  | [] => (acc, [])
  | m :: rest =>
    let inner := findEntityRow p m.rows m.entities 0 m.count
    let acc2 := match inner.1 with | some e => some e | none => acc
    let r := find_entity_go p acc2 rest
    (r.1, (Event.lock m.table :: inner.2 ++ [Event.unlock m.table]) ++ r.2)

/-- Embedding of `IterAPI::find_entity`. -/
def find_entity_run (p : Entity → Nat → Bool) (ms : List MatchItem) :
    Option Entity × List Event :=
  find_entity_go p none ms

/-- Inner entity loop of `find_iter`: the predicate receives the row
index and the tuple; the loop bound is `effCount iter.count`. -/
def findIterRow (p : Nat → Nat → Bool) (rows : List Nat) (ents : List Entity) :
    Nat → Nat → Option Entity × List Event
  | _, 0 => (none, [])
  | i, k + 1 =>
    if p i (rows.getD i 0) then
      (some (ents.getD i 0), [Event.invoke i])
    else
      let r := findIterRow p rows ents (i + 1) k
      (r.1, Event.invoke i :: r.2)

/-- Outer loop of `IterAPI::find_iter` (zero-count special case via
`effCount`). -/
def find_iter_go (p : Nat → Nat → Bool) (acc : Option Entity) :
    List MatchItem → Option Entity × List Event
  | [] => (acc, [])
  | m :: rest =>
    let inner := findIterRow p m.rows m.entities 0 (effCount m.count)
    let acc2 := match inner.1 with | some e => some e | none => acc
    let r := find_iter_go p acc2 rest
    (r.1, (Event.lock m.table :: inner.2 ++ [Event.unlock m.table]) ++ r.2)

/-- Embedding of `IterAPI::find_iter`. -/
def find_iter_run (p : Nat → Nat → Bool) (ms : List MatchItem) :
    Option Entity × List Event :=
  find_iter_go p none ms

/-! ## Per-table patterns, first-match, existence, count -/

/-- Embedding of `IterAPI::iter`: per match, lock, one callback
invocation on the slice tuple, unlock. -/
def iter_run : List MatchItem → List Event
  | [] => []
  | m :: rest =>
    (Event.lock m.table :: Event.invoke 0 :: [Event.unlock m.table]) ++ iter_run rest

/-- Embedding of `IterAPI::iter_only`: per match, lock, one callback
invocation on the iter context, unlock. -/
def iter_only_run : List MatchItem → List Event
  | [] => []
  | m :: rest =>
    (Event.lock m.table :: Event.invoke 0 :: [Event.unlock m.table]) ++ iter_only_run rest

/-- Embedding of `IterAPI::first_entity`: one `iter_next`; if it
succeeded and `it.count > 0`, take `entities.add(0)` and call
`ecs_iter_fini`; otherwise return `None` (with no finalization call on
the successful-advance, zero-count path). -/
def first_entity_run (ms : List MatchItem) : Option Entity × List Event :=
  match ms with
  | [] => (none, [])
  | m :: _ =>
    if 0 < m.count then
      (some (m.entities.getD 0 0), [Event.fini])
    else
      (none, [])

/-- Embedding of `IterAPI::is_true`: one `iter_next`; on success call
`ecs_iter_fini` and return true. -/
def is_true_run (ms : List MatchItem) : Bool × List Event :=
  match ms with
  | [] => (false, [])
  | _ :: _ => (true, [Event.fini])

/-- Accumulator loop of `IterAPI::count`: `result += it.count` while
`iter_next`. -/
def count_go (acc : Nat) : List MatchItem → Nat
  | [] => acc
  | m :: rest => count_go (acc + m.count) rest

/-- Embedding of `IterAPI::count`. -/
def count_run (ms : List MatchItem) : Nat := count_go 0 ms

/-! ## Query introspection

The prepared query handle `query_ptr()` is modelled as
`Option QueryT`, with `none` standing for a null pointer. -/

/-- Term records, kept abstract. -/
abbrev TermT := Nat

/-- The fields of the prepared query object read by this core:
`field_count`, `term_count`, and the indexable `terms` records.
Modelled from the spec: the sys-generated query struct layout is not
part of the excerpt, and the spec treats the prepared query as a
read-only handle with `term_count` indexable term records, so `terms`
is the sequence of those records. -/
structure QueryT where
  field_count : Int
  term_count : Nat
  terms : List TermT
deriving Repr, DecidableEq

/-- Observable outcome of an introspection call on the query handle:
a normal result, a loud defensive-check failure (`ecs_assert` abort
with its message — modelled from the spec: the assert macro is defined
outside the excerpt and the spec describes it as an immediate abort
with a descriptive message), a read through a null handle performed
with no prior check, or a Rust out-of-bounds slice-indexing panic. -/
inductive Outcome (α : Type) where
  | ok (a : α)
  | assertAbort (msg : String)
  | nullDeref
  | panicIndex
deriving Repr, DecidableEq

/-- Embedding of `IterAPI::each_term`: assert the query pointer is not
null, then visit `query.terms[i]` for `i in 0..query.term_count`
(a Rust index panic if some visited index is out of bounds of the
terms array). -/
def each_term_run (q : Option QueryT) : Outcome (List TermT) :=
  match q with
  | none => Outcome.assertAbort "query filter is null"
  | some query =>
    if query.term_count ≤ query.terms.length then
      Outcome.ok (query.terms.take query.term_count)
    else
      Outcome.panicIndex

/-- Embedding of `IterAPI::term`: assert the query pointer is not null,
then index `query.terms[index]` directly — with no bounds check against
`term_count` — so an index beyond the terms array is a Rust slice
indexing panic, never an absent result. -/
def term_run (q : Option QueryT) (index : Nat) : Outcome TermT :=
  match q with
  | none => Outcome.assertAbort "query filter is null"
  | some query =>
    match query.terms[index]? with
    | some t => Outcome.ok t
    | none => Outcome.panicIndex

/-- Embedding of `IterAPI::field_count`: dereference the query pointer
with no null check. -/
def field_count_run (q : Option QueryT) : Outcome Int :=
  match q with
  | none => Outcome.nullDeref
  | some query => Outcome.ok query.field_count

/-- Embedding of `IterAPI::term_count`: dereference the query pointer
with no null check. -/
def term_count_run (q : Option QueryT) : Outcome Nat :=
  match q with
  | none => Outcome.nullDeref
  | some query => Outcome.ok query.term_count

/-- Release events on the engine-allocated string buffer returned by
`ecs_query_str` / `ecs_query_plan`. -/
inductive FreeEvent where
  | engineHook (buf : Nat)
  | generalAlloc (buf : Nat)
deriving Repr, DecidableEq

/-- The slice of `ecs_os_api` this core reads: whether the engine's
`free_` deallocation hook is installed (`Option` in the bindings,
matched with `if let Some(free_func)`). -/
structure OsApi where
  hasFreeHook : Bool
deriving Repr, DecidableEq

/-- Embedding of `IterAPI::to_string`: call `ecs_query_str` on the raw
query pointer (a read through the handle, with no null check), convert
the returned buffer to an owned string, then release the buffer via
`ecs_os_api.free_` when that hook is installed. `render` is the
engine's string rendering and `buf` the engine-allocated buffer. -/
def to_string_run (api : OsApi) (render : QueryT → String) (buf : Nat)
    (q : Option QueryT) : Outcome String × List FreeEvent :=
  match q with
  | none => (Outcome.nullDeref, [])
  | some query =>
    (Outcome.ok (render query),
      if api.hasFreeHook then [FreeEvent.engineHook buf] else [])

/-- Embedding of `IterAPI::plan`: identical structure to `to_string`,
delegating to `ecs_query_plan`. -/
def plan_run (api : OsApi) (render : QueryT → String) (buf : Nat)
    (q : Option QueryT) : Outcome String × List FreeEvent :=
  match q with
  | none => (Outcome.nullDeref, [])
  | some query =>
    (Outcome.ok (render query),
      if api.hasFreeHook then [FreeEvent.engineHook buf] else [])

/-- Embedding of `IterAPI::find_var`: `ecs_query_find_var` (the
engine's name-to-index lookup) returns an index, and the result is
`None` exactly on the `-1` not-found sentinel, `Some` otherwise. -/
def find_var_run (engine_lookup : String → Int) (name : String) : Option Int :=
  let var_index := engine_lookup name
  if var_index = -1 then none else some var_index

/-! ## Concrete inputs used by counterexamples and witnesses -/

/-- A valid match with zero concrete entities (shared/singleton-only
match). -/
def mZero : MatchItem := ⟨1, 0, [], []⟩

/-- A match of three entities whose third row satisfies the sample
predicate `findBugPred`. -/
def findBugM1 : MatchItem := ⟨1, 3, [10, 11, 12], [10, 11, 12]⟩

/-- A later match whose first row also satisfies `findBugPred`. -/
def findBugM2 : MatchItem := ⟨2, 2, [13, 14], [13, 14]⟩

/-- Sample predicate: true on the data of entity 12 (third visited) and
of entity 13 (in the later table). -/
def findBugPred (x : Nat) : Bool := x = 12 || x = 13

/-- A non-empty match whose first entity is 7. -/
def mSeven : MatchItem := ⟨2, 2, [7, 8], [7, 8]⟩

/-- A sample prepared query with two term records. -/
def qSample : QueryT := ⟨2, 2, [5, 6]⟩

/-! ## Helper lemmas on traces -/

/-- The per-match event block of every locking pattern is exactly one
lock, an invoke-only inner trace, and one unlock; this predicate states
that a whole trace decomposes match by match into such blocks and that
locks and unlocks are balanced, one pair per consumed match. -/
def lockedOncePerMatch (tr : List Event) (ms : List MatchItem)
    (inner : MatchItem → List Event) : Prop :=
  tr = (ms.map fun m => segment m.table (inner m)).flatten ∧
  (∀ m, invokesOnly (inner m) = true) ∧
  lockCount tr = ms.length ∧ unlockCount tr = ms.length

theorem lockCount_append (a b : List Event) :
    lockCount (a ++ b) = lockCount a + lockCount b := by
  simp [lockCount, List.filter_append]

theorem unlockCount_append (a b : List Event) :
    unlockCount (a ++ b) = unlockCount a + unlockCount b := by
  simp [unlockCount, List.filter_append]

theorem lockCount_segment (t : Nat) (inner : List Event)
    (h : invokesOnly inner = true) : lockCount (segment t inner) = 1 := by
  have hf : inner.filter (fun e => match e with | .lock _ => true | _ => false) = [] := by
    rw [List.filter_eq_nil_iff]
    intro a ha
    have := (List.all_eq_true.mp h) a ha
    cases a <;> simp_all [invokesOnly]
  simp [segment, lockCount, List.filter_append, hf]

theorem unlockCount_segment (t : Nat) (inner : List Event)
    (h : invokesOnly inner = true) : unlockCount (segment t inner) = 1 := by
  have hf : inner.filter (fun e => match e with | .unlock _ => true | _ => false) = [] := by
    rw [List.filter_eq_nil_iff]
    intro a ha
    have := (List.all_eq_true.mp h) a ha
    cases a <;> simp_all [invokesOnly]
  simp [segment, unlockCount, List.filter_append, hf]

theorem lockCount_flatten_segments (ms : List MatchItem) (inner : MatchItem → List Event)
    (h : ∀ m, invokesOnly (inner m) = true) :
    lockCount ((ms.map fun m => segment m.table (inner m)).flatten) = ms.length ∧
    unlockCount ((ms.map fun m => segment m.table (inner m)).flatten) = ms.length := by
  induction ms with
  | nil => simp [lockCount, unlockCount]
  | cons m rest ih =>
    simp only [List.map_cons, List.flatten_cons, lockCount_append, unlockCount_append,
      lockCount_segment m.table (inner m) (h m), unlockCount_segment m.table (inner m) (h m),
      List.length_cons]
    omega

theorem each_run_eq_flatten (ms : List MatchItem) :
    each_run ms =
      (ms.map fun m => segment m.table ((List.range m.count).map Event.invoke)).flatten := by
  induction ms with
  | nil => rfl
  | cons m rest ih => simp [each_run, segment, ih]

theorem each_entity_run_eq_flatten (ms : List MatchItem) :
    each_entity_run ms =
      (ms.map fun m =>
        segment m.table ((List.range (effCount m.count)).map Event.invoke)).flatten := by
  induction ms with
  | nil => rfl
  | cons m rest ih => simp [each_entity_run, segment, ih]

theorem each_iter_run_eq_flatten (ms : List MatchItem) :
    each_iter_run ms =
      (ms.map fun m =>
        segment m.table ((List.range (effCount m.count)).map Event.invoke)).flatten := by
  induction ms with
  | nil => rfl
  | cons m rest ih => simp [each_iter_run, segment, ih]

theorem iter_run_eq_flatten (ms : List MatchItem) :
    iter_run ms = (ms.map fun m => segment m.table [Event.invoke 0]).flatten := by
  induction ms with
  | nil => rfl
  | cons m rest ih => simp [iter_run, segment, ih]

theorem iter_only_run_eq_flatten (ms : List MatchItem) :
    iter_only_run ms = (ms.map fun m => segment m.table [Event.invoke 0]).flatten := by
  induction ms with
  | nil => rfl
  | cons m rest ih => simp [iter_only_run, segment, ih]

theorem find_go_snd (p : Nat → Bool) (ms : List MatchItem) :
    ∀ acc, (find_go p acc ms).2 =
      (ms.map fun m => segment m.table (findRow p m.rows m.entities 0 m.count).2).flatten := by
  induction ms with
  | nil => intro acc; rfl
  | cons m rest ih => intro acc; simp [find_go, segment, ih]

theorem find_entity_go_snd (p : Entity → Nat → Bool) (ms : List MatchItem) :
    ∀ acc, (find_entity_go p acc ms).2 =
      (ms.map fun m =>
        segment m.table (findEntityRow p m.rows m.entities 0 m.count).2).flatten := by
  induction ms with
  | nil => intro acc; rfl
  | cons m rest ih => intro acc; simp [find_entity_go, segment, ih]

theorem find_iter_go_snd (p : Nat → Nat → Bool) (ms : List MatchItem) :
    ∀ acc, (find_iter_go p acc ms).2 =
      (ms.map fun m =>
        segment m.table (findIterRow p m.rows m.entities 0 (effCount m.count)).2).flatten := by
  induction ms with
  | nil => intro acc; rfl
  | cons m rest ih => intro acc; simp [find_iter_go, segment, ih]

theorem invokesOnly_range_map (n : Nat) :
    invokesOnly ((List.range n).map Event.invoke) = true := by
  simp [invokesOnly, List.all_eq_true]

theorem invokesOnly_findRow (p : Nat → Bool) (rows : List Nat) (ents : List Entity) :
    ∀ k i, invokesOnly (findRow p rows ents i k).2 = true := by
  intro k
  induction k with
  | zero => intro i; rfl
  | succ k ih =>
    intro i
    rw [findRow]
    by_cases h : p (rows.getD i 0)
    · rw [if_pos h]; rfl
    · rw [if_neg h]
      simpa [invokesOnly] using ih (i + 1)

theorem invokesOnly_findEntityRow (p : Entity → Nat → Bool) (rows : List Nat)
    (ents : List Entity) :
    ∀ k i, invokesOnly (findEntityRow p rows ents i k).2 = true := by
  intro k
  induction k with
  | zero => intro i; rfl
  | succ k ih =>
    intro i
    rw [findEntityRow]
    by_cases h : p (ents.getD i 0) (rows.getD i 0)
    · rw [if_pos h]; rfl
    · rw [if_neg h]
      simpa [invokesOnly] using ih (i + 1)

theorem invokesOnly_findIterRow (p : Nat → Nat → Bool) (rows : List Nat)
    (ents : List Entity) :
    ∀ k i, invokesOnly (findIterRow p rows ents i k).2 = true := by
  intro k
  induction k with
  | zero => intro i; rfl
  | succ k ih =>
    intro i
    rw [findIterRow]
    by_cases h : p i (rows.getD i 0)
    · rw [if_pos h]; rfl
    · rw [if_neg h]
      simpa [invokesOnly] using ih (i + 1)

theorem count_go_eq (ms : List MatchItem) :
    ∀ acc, count_go acc ms = acc + (ms.map MatchItem.count).sum := by
  induction ms with
  | nil => intro acc; simp [count_go]
  | cons m rest ih => intro acc; simp [count_go, ih]; omega

theorem lockedOncePerMatch_intro (tr : List Event) (ms : List MatchItem)
    (inner : MatchItem → List Event)
    (h1 : tr = (ms.map fun m => segment m.table (inner m)).flatten)
    (h2 : ∀ m, invokesOnly (inner m) = true) :
    lockedOncePerMatch tr ms inner := by
  refine ⟨h1, h2, ?_, ?_⟩
  · rw [h1]; exact (lockCount_flatten_segments ms inner h2).1
  · rw [h1]; exact (lockCount_flatten_segments ms inner h2).2

/-! ## Claim theorems -/

/-- Claim C1, evaluated at a failing input: with the predicate
satisfied at the 3rd visited entity (data of entity 12, first match)
and again in a later match (entity 13), `find` performs 4 predicate
invocations — the outer match loop is not stopped by the inner-loop
break — and returns the later entity 13, not the first satisfying
entity 12. -/
theorem c1_find_does_not_short_circuit :
    (find_run findBugPred [findBugM1, findBugM2]).1 = some 13 ∧
    invokeCount (find_run findBugPred [findBugM1, findBugM2]).2 = 4 := by
  constructor <;> rfl

/-- Claim C2, counterexample: on a valid match with entity count 0,
`each`, `find` and `find_entity` invoke the callback zero times, not
exactly once as the claim states for every per-entity pattern. -/
theorem c2_zero_count_counterexample :
    invokeCount (each_run [mZero]) = 0 ∧
    invokeCount (find_run (fun _ => true) [mZero]).2 = 0 ∧
    invokeCount (find_entity_run (fun _ _ => true) [mZero]).2 = 0 := by
  refine ⟨rfl, rfl, rfl⟩

/-- Claim C2 as amended: on a valid zero-count (shared/singleton-only)
match, `each_entity`, `each_iter` and `find_iter` invoke the callback
exactly once with row index 0, while `each`, `find` and `find_entity`
invoke it zero times. -/
theorem c2_zero_count_amended (m : MatchItem) (p : Nat → Bool)
    (pe : Entity → Nat → Bool) (pq : Nat → Nat → Bool) (h : m.count = 0) :
    invokes (each_entity_run [m]) = [Event.invoke 0] ∧
    invokes (each_iter_run [m]) = [Event.invoke 0] ∧
    invokes ((find_iter_run pq [m]).2) = [Event.invoke 0] ∧
    invokes (each_run [m]) = [] ∧
    invokes ((find_run p [m]).2) = [] ∧
    invokes ((find_entity_run pe [m]).2) = [] := by
  have hr1 : List.range 1 = [0] := rfl
  have hrow : (findIterRow pq m.rows m.entities 0 1).2 = [Event.invoke 0] := by
    rw [findIterRow]
    split
    · rfl
    · rfl
  refine ⟨?_, ?_, ?_, ?_, ?_, ?_⟩
  · simp [each_entity_run, effCount, h, invokes, hr1]
  · simp [each_iter_run, effCount, h, invokes, hr1]
  · simp [find_iter_run, find_iter_go, effCount, h, hrow, invokes]
  · simp [each_run, h, invokes]
  · simp [find_run, find_go, findRow, h, invokes]
  · simp [find_entity_run, find_entity_go, findEntityRow, h, invokes]

/-- Claim C2 amended, witness at the concrete zero-count match. -/
theorem c2_zero_count_amended_witness :
    invokes (each_entity_run [mZero]) = [Event.invoke 0] ∧
    invokes (each_iter_run [mZero]) = [Event.invoke 0] ∧
    invokes ((find_iter_run (fun _ _ => false) [mZero]).2) = [Event.invoke 0] ∧
    invokes (each_run [mZero]) = [] ∧
    invokes ((find_run (fun _ => false) [mZero]).2) = [] ∧
    invokes ((find_entity_run (fun _ _ => false) [mZero]).2) = [] :=
  c2_zero_count_amended mZero (fun _ => false) (fun _ _ => false) (fun _ _ => false) rfl

/-- Claim C3, evaluated at the failing input: when the first match is
valid but has entity count 0, `first_entity` stops iterating (the
cursor is not exhausted) and returns `None` with no `ecs_iter_fini`
call — the engine-side iteration context is leaked on this early-exit
path — whereas `is_true` on the same cursor does finalize. -/
theorem c3_first_entity_zero_count_leak :
    first_entity_run [mZero] = (none, []) ∧
    is_true_run [mZero] = (true, [Event.fini]) :=
  ⟨rfl, rfl⟩

/-- Claim C4: every locking consumption pattern acquires the table lock
exactly once per consumed match (never per entity), the lock covers the
whole inner entity loop (the per-match trace block is lock, an
invoke-only inner trace, unlock), and lock acquisitions equal releases
on every exit path — including the early break out of the entity loop
in the find family; `first_entity` and `is_true` perform zero
acquisitions and zero releases. -/
theorem c4_lock_pairing (ms : List MatchItem) (p : Nat → Bool)
    (pe : Entity → Nat → Bool) (pq : Nat → Nat → Bool) :
    lockedOncePerMatch (each_run ms) ms
      (fun m => (List.range m.count).map Event.invoke) ∧
    lockedOncePerMatch (each_entity_run ms) ms
      (fun m => (List.range (effCount m.count)).map Event.invoke) ∧
    lockedOncePerMatch (each_iter_run ms) ms
      (fun m => (List.range (effCount m.count)).map Event.invoke) ∧
    lockedOncePerMatch (iter_run ms) ms (fun _ => [Event.invoke 0]) ∧
    lockedOncePerMatch (iter_only_run ms) ms (fun _ => [Event.invoke 0]) ∧
    lockedOncePerMatch (find_run p ms).2 ms
      (fun m => (findRow p m.rows m.entities 0 m.count).2) ∧
    lockedOncePerMatch (find_entity_run pe ms).2 ms
      (fun m => (findEntityRow pe m.rows m.entities 0 m.count).2) ∧
    lockedOncePerMatch (find_iter_run pq ms).2 ms
      (fun m => (findIterRow pq m.rows m.entities 0 (effCount m.count)).2) ∧
    lockCount (first_entity_run ms).2 = 0 ∧ unlockCount (first_entity_run ms).2 = 0 ∧
    lockCount (is_true_run ms).2 = 0 ∧ unlockCount (is_true_run ms).2 = 0 := by
  refine ⟨?_, ?_, ?_, ?_, ?_, ?_, ?_, ?_, ?_, ?_, ?_, ?_⟩
  · exact lockedOncePerMatch_intro _ _ _ (each_run_eq_flatten ms)
      (fun m => invokesOnly_range_map m.count)
  · exact lockedOncePerMatch_intro _ _ _ (each_entity_run_eq_flatten ms)
      (fun m => invokesOnly_range_map (effCount m.count))
  · exact lockedOncePerMatch_intro _ _ _ (each_iter_run_eq_flatten ms)
      (fun m => invokesOnly_range_map (effCount m.count))
  · exact lockedOncePerMatch_intro _ _ _ (iter_run_eq_flatten ms) (fun _ => rfl)
  · exact lockedOncePerMatch_intro _ _ _ (iter_only_run_eq_flatten ms) (fun _ => rfl)
  · exact lockedOncePerMatch_intro _ _ _ (find_go_snd p ms none)
      (fun m => invokesOnly_findRow p m.rows m.entities m.count 0)
  · exact lockedOncePerMatch_intro _ _ _ (find_entity_go_snd pe ms none)
      (fun m => invokesOnly_findEntityRow pe m.rows m.entities m.count 0)
  · exact lockedOncePerMatch_intro _ _ _ (find_iter_go_snd pq ms none)
      (fun m => invokesOnly_findIterRow pq m.rows m.entities (effCount m.count) 0)
  · cases ms with
    | nil => rfl
    | cons m rest => by_cases h : 0 < m.count <;> simp [first_entity_run, h, lockCount]
  · cases ms with
    | nil => rfl
    | cons m rest => by_cases h : 0 < m.count <;> simp [first_entity_run, h, unlockCount]
  · cases ms with
    | nil => rfl
    | cons m rest => simp [is_true_run, lockCount]
  · cases ms with
    | nil => rfl
    | cons m rest => simp [is_true_run, unlockCount]

/-- Claim C5, counterexample: when the first match has entity count 0
and a later match is non-empty with first entity 7, `first_entity`
returns `None`, not `Some` of the first entity of the first non-empty
match. -/
theorem c5_first_entity_counterexample :
    (first_entity_run [mZero, mSeven]).1 = none ∧
    0 < mSeven.count ∧ mSeven.entities.getD 0 0 = 7 := by
  refine ⟨rfl, by decide, rfl⟩

/-- Claim C5 as amended: `first_entity` looks only at the first match:
it returns `Some e` exactly when the cursor yields at least one match
whose entity count is positive as its first match and `e` is that
match's first entity, finalizing the cursor on that path; it returns
`None` whenever the first match is absent or empty, even if a later
match contains entities. -/
theorem c5_first_entity_amended (ms : List MatchItem) (e : Entity) :
    ((first_entity_run ms).1 = some e ↔
      ∃ m rest, ms = m :: rest ∧ 0 < m.count ∧ e = m.entities.getD 0 0) ∧
    ((first_entity_run ms).1 ≠ none → (first_entity_run ms).2 = [Event.fini]) := by
  cases ms with
  | nil => simp [first_entity_run]
  | cons m rest =>
    by_cases h : 0 < m.count
    · simp [first_entity_run, h, eq_comm]
    · have hz : m.count = 0 := by omega
      simp [first_entity_run, h, hz]

/-- Claim C5 amended, witness at a concrete non-empty first match. -/
theorem c5_first_entity_amended_witness :
    (first_entity_run [mSeven]).1 = some 7 ∧
    (first_entity_run [mSeven]).2 = [Event.fini] :=
  ⟨(c5_first_entity_amended [mSeven] 7).1.mpr ⟨mSeven, [], rfl, by decide, rfl⟩,
   (c5_first_entity_amended [mSeven] 7).2 (by decide)⟩

/-- Claim C6: `count` returns the sum of the per-match entity count
over every match yielded by the `iter_next` loop; in particular, with
one table of 5 matching entities and one of 2, it returns 7. -/
theorem c6_count_additivity :
    (∀ ms : List MatchItem, count_run ms = (ms.map MatchItem.count).sum) ∧
    count_run [⟨1, 5, [1, 2, 3, 4, 5], [0, 0, 0, 0, 0]⟩, ⟨2, 2, [6, 7], [0, 0]⟩] = 7 := by
  constructor
  · intro ms; simpa [count_run] using count_go_eq ms 0
  · rfl

/-- Claim C7, counterexample: on a null query handle, `field_count`,
`term_count`, `to_string` and `plan` perform no defensive check — they
read straight through the invalid handle instead of failing loudly
with an assert. -/
theorem c7_no_null_check_counterexample :
    field_count_run none = Outcome.nullDeref ∧
    term_count_run none = Outcome.nullDeref ∧
    (to_string_run ⟨true⟩ (fun _ => "") 0 none).1 = Outcome.nullDeref ∧
    (plan_run ⟨true⟩ (fun _ => "") 0 none).1 = Outcome.nullDeref :=
  ⟨rfl, rfl, rfl, rfl⟩

/-- Claim C7 as amended: only `each_term` and `term` detect a null
query pointer and abort loudly with the descriptive message; the
remaining introspection operations — `field_count`, `term_count`,
`to_string`, `plan` — perform no defensive check and read through the
invalid handle. -/
theorem c7_null_check_amended :
    each_term_run none = Outcome.assertAbort "query filter is null" ∧
    (∀ index, term_run none index = Outcome.assertAbort "query filter is null") ∧
    field_count_run none = Outcome.nullDeref ∧
    term_count_run none = Outcome.nullDeref ∧
    (∀ (api : OsApi) (render : QueryT → String) (buf : Nat),
      (to_string_run api render buf none).1 = Outcome.nullDeref ∧
      (plan_run api render buf none).1 = Outcome.nullDeref) :=
  ⟨rfl, fun _ => rfl, rfl, rfl, fun _ _ _ => ⟨rfl, rfl⟩⟩

/-- Claim C8, counterexample: when the engine's deallocation hook is
not installed, `to_string` and `plan` release the engine-allocated
buffer zero times, not exactly once. -/
theorem c8_free_hook_counterexample :
    (to_string_run ⟨false⟩ (fun _ => "q") 3 (some qSample)).2 = [] ∧
    (plan_run ⟨false⟩ (fun _ => "q") 3 (some qSample)).2 = [] :=
  ⟨rfl, rfl⟩

/-- Claim C8 as amended: `to_string` and `plan` never release the
engine-allocated buffer through the general-purpose allocator; whenever
the engine's deallocation hook is installed they release the buffer
exactly once, through that hook, and when it is not installed the
buffer is not released at all. -/
theorem c8_free_via_hook_amended (api : OsApi) (render : QueryT → String)
    (buf : Nat) (query : QueryT) :
    ((to_string_run api render buf (some query)).2 =
      if api.hasFreeHook then [FreeEvent.engineHook buf] else []) ∧
    ((plan_run api render buf (some query)).2 =
      if api.hasFreeHook then [FreeEvent.engineHook buf] else []) ∧
    (∀ b, FreeEvent.generalAlloc b ∉ (to_string_run api render buf (some query)).2) ∧
    (∀ b, FreeEvent.generalAlloc b ∉ (plan_run api render buf (some query)).2) ∧
    (api.hasFreeHook = true →
      (to_string_run api render buf (some query)).2.length = 1 ∧
      (plan_run api render buf (some query)).2.length = 1) := by
  by_cases h : api.hasFreeHook <;> simp [to_string_run, plan_run, h]

/-- Claim C8 amended, witness with the hook installed. -/
theorem c8_free_via_hook_amended_witness :
    (to_string_run ⟨true⟩ (fun _ => "q") 3 (some qSample)).2.length = 1 ∧
    (plan_run ⟨true⟩ (fun _ => "q") 3 (some qSample)).2.length = 1 :=
  (c8_free_via_hook_amended ⟨true⟩ (fun _ => "q") 3 qSample).2.2.2.2 rfl

/-- Claim C9: `find_var` returns `None` exactly when the engine's
lookup returns the `-1` not-found sentinel, and `Some` of the reported
index otherwise — an absent result, never a panic or abort (the
embedding is a total function). -/
theorem c9_find_var_sentinel (engine_lookup : String → Int) (name : String) :
    (find_var_run engine_lookup name = none ↔ engine_lookup name = -1) ∧
    (engine_lookup name ≠ -1 →
      find_var_run engine_lookup name = some (engine_lookup name)) := by
  by_cases h : engine_lookup name = -1 <;> simp [find_var_run, h]

/-- Claim C9, witness: an engine-reported index of 2 surfaces as
`Some 2`. -/
theorem c9_find_var_sentinel_witness :
    find_var_run (fun _ => (2 : Int)) "x" = some 2 :=
  (c9_find_var_sentinel (fun _ => (2 : Int)) "x").2 (by decide)

/-- Claim C10: `term` indexes the query's term records directly with no
bounds check against `term_count`: for every index at or beyond the
term records (which the spec models as numbering `term_count`), the
call is an out-of-bounds slice-indexing panic — never an absent or
optional result — and every in-bounds index yields a term. -/
theorem c10_term_index_panic (query : QueryT) (index : Nat)
    (h : query.terms.length = query.term_count) :
    (term_run (some query) index = Outcome.panicIndex ↔ query.term_count ≤ index) ∧
    (index < query.term_count → ∃ t, term_run (some query) index = Outcome.ok t) := by
  constructor
  · cases hg : query.terms[index]? with
    | none =>
      have hn := List.getElem?_eq_none_iff.mp hg
      simp [term_run, hg]
      omega
    | some t =>
      have hx : index < query.terms.length := (List.getElem?_eq_some_iff.mp hg).1
      simp [term_run, hg]
      omega
  · intro hlt
    cases hg : query.terms[index]? with
    | none =>
      have hn := List.getElem?_eq_none_iff.mp hg
      omega
    | some t =>
      exact ⟨t, by simp [term_run, hg]⟩

/-- Claim C10, witness: on a query with two term records, index 2 (the
term count) and index 5 both panic, while index 1 yields a term. -/
theorem c10_term_index_panic_witness :
    term_run (some qSample) 2 = Outcome.panicIndex ∧
    term_run (some qSample) 5 = Outcome.panicIndex ∧
    (2 : Nat) ≤ 2 :=
  ⟨(c10_term_index_panic qSample 2 rfl).1.mpr (by decide),
   (c10_term_index_panic qSample 5 rfl).1.mpr (by decide),
   by decide⟩

end FlecsIter
